import Mathlib

/-!
Shallow embedding of the agent-pulse turn-loop orchestrator (src/agent.ts)
and of the streamed-response normalization shared by the OpenAI and Grok
provider adapters (src/providers/openai.ts, src/providers/grok.ts).

JavaScript values that flow through the orchestrator (message contents,
tool results, parsed JSON) are modelled by the inductive JSValue, with
explicit null and undefined so that the source's truthiness tests and
strict comparisons (result !== null, typeof x === string) translate
exactly.
-/

namespace AgentPulse

/-- A JavaScript value, as far as the orchestrator and adapters inspect it:
null, undefined, booleans, numbers (the code never does arithmetic on
them, so integers suffice), strings, and JSON-style objects. An object is
its ordered field list, spelled as an inline cons chain (objNil / objCons)
so that equality stays structurally decidable. -/
inductive JSValue where
  | null : JSValue
  | undef : JSValue
  | bool (b : Bool) : JSValue
  | num (n : Int) : JSValue
  | str (s : String) : JSValue
  | objNil : JSValue
  | objCons (key : String) (value : JSValue) (rest : JSValue) : JSValue
deriving DecidableEq, Repr

/-- Builds an object value from an ordered field list. -/
def JSValue.mkObj : List (String × JSValue) → JSValue
  | [] => .objNil
  | (k, v) :: rest => .objCons k v (JSValue.mkObj rest)

/-- JavaScript truthiness for the values above: null, undefined, false,
0 and the empty string are falsy; every other value (objects included)
is truthy. -/
def JSValue.truthy : JSValue → Bool
  | .null => false
  | .undef => false
  | .bool b => b
  | .num n => n != 0
  | .str s => s != ""
  | .objNil => true
  | .objCons _ _ _ => true

/-- typeof v === "string" as used in agent.ts lines 60 and 92. -/
def JSValue.isStr : JSValue → Bool
  | .str _ => true
  | _ => false

/-- JSON escaping of a single character (quote and backslash only; the
code never feeds control characters through JSON.stringify in any claim). -/
def jsonEscapeChar (c : Char) : String :=
  if c = Char.ofNat 92 then "\\\\"
  else if c = Char.ofNat 34 then "\\\"" else String.singleton c

/-- JSON quoting of a string literal. -/
def jsonQuote (s : String) : String :=
  "\"" ++ String.join (s.toList.map jsonEscapeChar) ++ "\""

mutual

/-- Rendering of a defined value by JSON.stringify. (One simplification
that no claim touches: an undefined appearing inside an object field is
rendered as null instead of the field being dropped.) -/
def jsonRender : JSValue → String
  | .null => "null"
  | .undef => "null"
  | .bool b => if b then "true" else "false"
  | .num n => toString n
  | .str s => jsonQuote s
  | .objNil => "\x7b\x7d"
  | .objCons k v rest => "\x7b" ++ jsonFields k v rest ++ "\x7d"
termination_by v => sizeOf v
decreasing_by
  all_goals simp_wf

/-- The comma-separated "key":value entries of a nonempty object chain. -/
def jsonFields (k : String) (v : JSValue) (rest : JSValue) : String :=
  let entry := jsonQuote k ++ ":" ++ jsonRender v
  match rest with
  | .objCons k2 v2 r2 => entry ++ "," ++ jsonFields k2 v2 r2
  | _ => entry
termination_by sizeOf v + sizeOf rest
decreasing_by
  all_goals simp_wf
  all_goals (first
    | omega
    | (have h : 0 < sizeOf rest := by cases rest <;> simp_arith
       omega))

end

/-- JSON.stringify: undefined itself stringifies to undefined (no string),
every other value to its rendering. -/
def jsonStringify : JSValue → Option String
  | .undef => none
  | v => some (jsonRender v)

/-- Token usage as reported in an AgentResponse (src/types.ts). -/
structure Usage where
  input_tokens : Nat := 0
  output_tokens : Nat := 0
  total_tokens : Nat := 0
  reasoning_tokens : Option Nat := none
deriving DecidableEq, Repr

/-- Response metadata (src/types.ts): model identifier and latency. -/
structure Meta where
  model : String := ""
  latency_ms : Nat := 0
deriving DecidableEq, Repr

/-- A tool call as produced by a provider adapter. The adapters build it
as { name: tc.function?.name, arguments: parsed, id: tc.id }, where name
and id may be absent (JavaScript undefined), hence the Options. -/
structure ToolCall where
  id : Option String := none
  name : Option String := none
  arguments : JSValue := .objNil
deriving DecidableEq, Repr

/-- The canonical per-run result (src/types.ts AgentResponse). -/
structure AgentResponse where
  content : JSValue
  tool_calls : Option (List ToolCall) := none
  message : Option String := none
  usage : Usage := {}
  meta : Meta := {}
deriving DecidableEq, Repr

/-- One turn of conversation history (src/types.ts AgentMessage). -/
structure AgentMessage where
  role : String
  content : JSValue
  name : Option String := none
  tool_calls : Option (List ToolCall) := none
  tool_call_id : Option String := none
  usage : Option Usage := none
  meta : Option Meta := none
deriving DecidableEq, Repr

/-- A configured tool (src/types.ts AgentTool). Its execute operation
either returns a value or fails with an error message; the parameter
schema is irrelevant to the orchestrator and omitted. -/
structure AgentTool where
  name : String
  description : String := ""
  execute : JSValue → Except String JSValue

/-- The agent configuration fields the orchestrator itself reads
(src/types.ts AgentConfig). system, files, config and output_schema are
only forwarded verbatim to the provider's generate call, which the Generate
closure below already encapsulates, so they are not repeated here. -/
structure AgentConfig where
  prompt : Option String := none
  tools : Option (List AgentTool) := none
  saveFunction : Option (AgentMessage → Except String Unit) := none
  max_tool_iterations : Option Nat := none

/-- The provider binding for one run: from the current message history to
the token fragments streamed through onToken and the settled outcome of
generate (a response, or a thrown error). -/
def Generate : Type := List AgentMessage → List String × Except String AgentResponse

/-- The notifications an Agent emits (EventEmitter events in agent.ts). -/
inductive AgentEvent where
  | start : AgentEvent
  | token (t : String) : AgentEvent
  | tool_start (tool : String) (args : JSValue) : AgentEvent
  | tool_end (tool : String) (result : JSValue) : AgentEvent
  | response (r : AgentResponse) : AgentEvent
  | error (error_key : String) (message : String) : AgentEvent
deriving DecidableEq, Repr

/-- Everything observable about one Agent.run invocation: the emitted
events in order, the final message history, the sequence of messages the
persistence hook was invoked with, how many times generate was called,
and the settled outcome (returned response, or re-raised error). -/
structure RunTrace where
  events : List AgentEvent
  messages : List AgentMessage
  saved : List AgentMessage
  generateCalls : Nat
  result : Except String AgentResponse

/-! ## Provider adapter: stream accumulation and structured output

Embedding of the response-normalization tail shared verbatim by
OpenAIProvider.generate (src/providers/openai.ts lines 122-193) and
GrokProvider.generate (src/providers/grok.ts): the stream loop folding
chunks into fullContent / toolCalls / usage, the structured-output step,
and the mapping of accumulated fragments to generic tool calls. -/

/-- One incremental tool-call fragment
(chunk.choices[0].delta.tool_calls[i]). On the wire, name and arguments
sit under a function field that is present on every fragment these
streams carry, so the two optional strings are carried directly:
fname models tc.function?.name and farguments tc.function?.arguments. -/
structure DeltaToolCall where
  index : Nat
  id : Option String := none
  fname : Option String := none
  farguments : Option String := none
deriving DecidableEq, Repr

/-- One streamed chunk, reduced to the three parts the stream loop reads:
chunk.choices[0]?.delta?.content, chunk.choices[0]?.delta?.tool_calls, and
chunk.usage (already remapped to the canonical Usage field names, which
the source does inline). -/
structure Chunk where
  content : Option String := none
  tool_calls : Option (List DeltaToolCall) := none
  usage : Option Usage := none
deriving DecidableEq, Repr

/-- JavaScript x += s for x of type string-or-undefined: an undefined
left-hand side is coerced to the string "undefined" before concatenation. -/
def jsAppend : Option String → String → Option String
  | none, s => some ("undefined" ++ s)
  | some a, s => some (a ++ s)

/-- Reading toolCalls[i] from the (possibly sparse) accumulator array. -/
def getIdx (l : List (Option DeltaToolCall)) (i : Nat) : Option DeltaToolCall :=
  l.getD i none

/-- Writing toolCalls[i] = v, extending the array with holes as
JavaScript assignment past the current length does. -/
def setIdx (l : List (Option DeltaToolCall)) (i : Nat) (v : Option DeltaToolCall) :
    List (Option DeltaToolCall) :=
  match i, l with
  | 0, [] => [v]
  | 0, _ :: t => v :: t
  | Nat.succ j, [] => none :: setIdx [] j v
  | Nat.succ j, h :: t => h :: setIdx t j v

/-- Folding one tool-call fragment into the accumulator array
(openai.ts lines 137-146): the first fragment at an index is stored
as-is; later fragments at the same index append their (truthy, i.e.
nonempty) name and arguments pieces onto the stored strings with
JavaScript +=. -/
def mergeDelta (acc : List (Option DeltaToolCall)) (tc : DeltaToolCall) :
    List (Option DeltaToolCall) :=
  match getIdx acc tc.index with
  | none => setIdx acc tc.index (some tc)
  | some stored =>
      let s1 := match tc.fname with
        | some n => if n = "" then stored else { stored with fname := jsAppend stored.fname n }
        | none => stored
      let s2 := match tc.farguments with
        | some a => if a = "" then s1 else { s1 with farguments := jsAppend s1.farguments a }
        | none => s1
      setIdx acc tc.index (some s2)

/-- The adapter's per-call accumulator: the concatenated text, the
tool-call fragment array, the last usage report seen, and the token
fragments forwarded to onToken in order. -/
structure AccState where
  fullContent : String := ""
  toolCalls : List (Option DeltaToolCall) := []
  usage : Usage := {}
  tokens : List String := []
deriving Repr

/-- One pass of the stream loop body (openai.ts lines 127-160) over a
single chunk: truthy text deltas are forwarded to onToken and
concatenated, tool-call fragments are merged by index, and a usage
report overwrites (never adds to) the current one. -/
def processChunk (st : AccState) (ch : Chunk) : AccState :=
  let st1 := match ch.content with
    | some c =>
        if c = "" then st
        else { st with fullContent := st.fullContent ++ c, tokens := st.tokens ++ [c] }
    | none => st
  let st2 := match ch.tool_calls with
    | some tcs => { st1 with toolCalls := tcs.foldl mergeDelta st1.toolCalls }
    | none => st1
  match ch.usage with
  | some u => { st2 with usage := u }
  | none => st2

/-- The whole stream loop: fold every chunk in arrival order. -/
def accumulate (chunks : List Chunk) : AccState :=
  chunks.foldl processChunk {}

/-- An output schema's validate operation (zod's parse); the adapters
discard its return value, so only success or failure matters. -/
def OutputSchema : Type := JSValue → Except String Unit

/-- The structured-output step (openai.ts lines 162-172). finalContent
starts as the raw accumulated text; when a schema was requested and no
tool call accumulated, JSON.parse reassigns finalContent BEFORE schema
validation runs, and the catch only logs a warning — so a parse failure
leaves the raw text, while a validation failure leaves the already
parsed value. -/
def finalizeContent (output_schema : Option OutputSchema)
    (jsonParse : String → Except String JSValue) (st : AccState) : JSValue :=
  match output_schema, st.toolCalls with
  | some schema, [] =>
      match jsonParse st.fullContent with
      | .error _ => .str st.fullContent
      | .ok v =>
          match schema v with
          | .ok _ => v
          | .error _ => v
  | _, _ => .str st.fullContent

/-- The mapping of accumulated fragments to generic tool calls
(openai.ts lines 174-182), undefined when none accumulated. Truthy
argument strings go through JSON.parse, whose failure is uncaught and
fails the whole generate call; falsy ones become the empty object.
Sparse holes, which the streams in scope never produce, are skipped as
Array.prototype.map skips them. -/
def mapToolCalls (jsonParse : String → Except String JSValue)
    (tcs : List (Option DeltaToolCall)) : Except String (Option (List ToolCall)) :=
  match tcs with
  | [] => .ok none
  | _ =>
      ((tcs.filterMap id).mapM (fun (tc : DeltaToolCall) =>
        show Except String ToolCall from
        match tc.farguments with
        | some a =>
            if a = "" then
              Except.ok { id := tc.id, name := tc.fname, arguments := JSValue.objNil }
            else
              (jsonParse a).map (fun args =>
                { id := tc.id, name := tc.fname, arguments := args })
        | none =>
            Except.ok { id := tc.id, name := tc.fname, arguments := JSValue.objNil })).map
        Option.some

/-- The response-normalization tail of OpenAIProvider.generate and
GrokProvider.generate, from the vendor stream (the chunk list) to the
tokens forwarded to onToken and the settled outcome. The request
preparation that precedes the stream loop in the source only shapes what
the vendor sees and is elided; jsonParse stands for the host runtime's
JSON.parse, which is not code of this repository. -/
def Provider.generate (model : String) (output_schema : Option OutputSchema)
    (jsonParse : String → Except String JSValue)
    (chunks : List Chunk) : List String × Except String AgentResponse :=
  let st := accumulate chunks
  let finalContent := finalizeContent output_schema jsonParse st
  match mapToolCalls jsonParse st.toolCalls with
  | .error e => (st.tokens, .error e)
  | .ok gtc =>
      (st.tokens, .ok {
        content := finalContent,
        tool_calls := gtc,
        usage := st.usage,
        meta := { model := model, latency_ms := 0 } })

/-! ## Turn-loop orchestrator (src/agent.ts, Agent.run)

The run is modelled as a pure function from the configuration, the
provider binding, the measured wall-clock latency and the input context
to a RunTrace. Await points (generate, tool execution, the persistence
hook) are deterministic calls of the injected functions; a thrown
JavaScript error is an Except.error carrying the message. -/

/-- The error-text tool-result message appended by the catch block of the
per-call try (agent.ts lines 102-107). -/
def errorToolMsg (call : ToolCall) (toolName : String) (e : String) : AgentMessage :=
  { role := "tool", content := .str ("Error: " ++ e),
    name := some toolName, tool_call_id := call.id }

/-- The tool-result message of a successful execution (agent.ts lines
88-93): a string result is recorded verbatim, any other value through
JSON.stringify. -/
def toolResultMsg (call : ToolCall) (toolName : String) (result : JSValue) : AgentMessage :=
  let content := if result.isStr then result
    else match jsonStringify result with
      | some s => JSValue.str s
      | none => JSValue.undef
  { role := "tool", content := content, name := some toolName, tool_call_id := call.id }

/-- The mutable state threaded through the per-turn tool loop
(agent.ts lines 78-111). -/
structure DispatchState where
  messages : List AgentMessage
  saved : List AgentMessage
  events : List AgentEvent
  lastToolResult : JSValue

/-- One pass of the tool loop body (agent.ts lines 79-111) for a single
call. An unknown tool name is skipped without any event or message. For
a found tool the try block emits tool_start, executes, emits tool_end,
records lastToolResult, appends and persists the result message; the
catch block (reached by an execute failure, or by a hook failure on the
result message since the hook call sits inside the same try) logs and
appends an error-text tool message, and persists nothing. -/
def dispatchCall (saveFunction : Option (AgentMessage → Except String Unit))
    (tools : List AgentTool) (st : DispatchState) (call : ToolCall) : DispatchState :=
  match tools.find? (fun t => some t.name == call.name) with
  | none => st
  | some tool =>
      let ev1 := st.events ++ [.tool_start tool.name call.arguments]
      match tool.execute call.arguments with
      | .error e =>
          { st with events := ev1,
                    messages := st.messages ++ [errorToolMsg call tool.name e] }
      | .ok result =>
          let toolMsg := toolResultMsg call tool.name result
          let base : DispatchState :=
            { messages := st.messages ++ [toolMsg], saved := st.saved,
              events := ev1 ++ [.tool_end tool.name result], lastToolResult := result }
          match saveFunction with
          | none => base
          | some f =>
              let base2 := { base with saved := base.saved ++ [toolMsg] }
              match f toolMsg with
              | .ok _ => base2
              | .error e =>
                  { base2 with messages := base2.messages ++ [errorToolMsg call tool.name e] }

/-- The whole per-turn tool loop: the calls of the turn, dispatched
sequentially in provider order. -/
def dispatchCalls (saveFunction : Option (AgentMessage → Except String Unit))
    (tools : List AgentTool) (calls : List ToolCall) (st : DispatchState) : DispatchState :=
  calls.foldl (dispatchCall saveFunction tools) st

/-- The run state carried across iterations of the while loop. -/
structure LoopSt where
  messages : List AgentMessage
  saved : List AgentMessage
  events : List AgentEvent
  lastResponse : Option AgentResponse
  generateCalls : Nat

/-- The message capture of agent.ts lines 59-62: when the response content
is a string, it is preserved in the message field; otherwise the response
is left as is. -/
def captureMessage (response : AgentResponse) : AgentResponse :=
  match response.content with
  | .str s => { response with message := some s }
  | _ => response

/-- The assistant tool-call message appended to history before dispatch
(agent.ts lines 67-72); a falsy content (empty string, null, undefined)
is recorded as null. -/
def assistantMsgOf (response : AgentResponse) (tcs : List ToolCall) : AgentMessage :=
  { role := "assistant",
    content := if response.content.truthy then response.content else .null,
    tool_calls := some tcs }

/-- The loop state after a dispatched turn (agent.ts lines 113-122): the
dispatch state is folded back, and the recorded response's content is
overwritten by the last tool result exactly when the iteration ceiling is
1 and that result is not null. -/
def afterTurnState (response : AgentResponse) (mi gc : Nat) (D : DispatchState) : LoopSt :=
  { messages := D.messages, saved := D.saved, events := D.events,
    lastResponse := some
      (if mi = 1 ∧ D.lastToolResult ≠ JSValue.null then
         { captureMessage response with content := D.lastToolResult }
       else captureMessage response),
    generateCalls := gc }

/-- The while loop of Agent.run (agent.ts lines 44-127), by recursion on
the remaining iteration budget (maxIterations - iterations, which the
source decreases by one per pass). Returns the final state and, when an
exception escaped the loop body — a generate failure, or a persistence
hook failure on the assistant tool-call message, whose save (lines
74-76) is the one hook call not wrapped in its own try — the thrown
error for the outer catch. -/
def runLoop (cfg : AgentConfig) (gen : Generate) (maxIterations : Nat) :
    Nat → LoopSt → LoopSt × Option String
  | 0, st => (st, none)
  | Nat.succ fuel, st =>
      let gr := gen st.messages
      let st := { st with events := st.events ++ gr.1.map AgentEvent.token,
                          generateCalls := st.generateCalls + 1 }
      match gr.2 with
      | .error e => (st, some e)
      | .ok response =>
          let lastResponse := captureMessage response
          match response.tool_calls, cfg.tools with
          | some tcs, some tools =>
              let assistantMsg := assistantMsgOf response tcs
              let st := { st with messages := st.messages ++ [assistantMsg] }
              let saveOutcome : LoopSt × Option String :=
                match cfg.saveFunction with
                | some f =>
                    let st2 := { st with saved := st.saved ++ [assistantMsg] }
                    match f assistantMsg with
                    | .error e => (st2, some e)
                    | .ok _ => (st2, none)
                | none => (st, none)
              match saveOutcome with
              | (st2, some e) => (st2, some e)
              | (st2, none) =>
                  let ds := dispatchCalls cfg.saveFunction tools tcs
                    { messages := st2.messages, saved := st2.saved,
                      events := st2.events, lastToolResult := .null }
                  runLoop cfg gen maxIterations fuel
                    (afterTurnState response maxIterations st2.generateCalls ds)
          | _, _ => ({ st with lastResponse := some lastResponse }, none)

/-- The effective iteration ceiling (agent.ts line 40):
this.config.max_tool_iterations || 1, so an absent or zero (falsy)
setting falls back to 1. -/
def maxIterationsOf (cfg : AgentConfig) : Nat :=
  match cfg.max_tool_iterations with
  | some n => if n = 0 then 1 else n
  | none => 1

/-- History initialization (agent.ts lines 20-27): an input history is
copied, a bare string is wrapped as a single user message, prefixed with
the configured (truthy) base prompt when present. -/
def initialMessages (cfg : AgentConfig) (input : String ⊕ List AgentMessage) :
    List AgentMessage :=
  match input with
  | .inr history => history
  | .inl content =>
      let userContent := match cfg.prompt with
        | some p => if p = "" then content else p ++ "\n\n" ++ content
        | none => content
      [{ role := "user", content := .str userContent }]

/-- The loop state at entry (agent.ts lines 16-41): the start event has
fired, the history is initialized, and — when the input was a bare string
and a hook is configured — the hook has been invoked on the new user
message with any failure logged and swallowed. -/
def initState (cfg : AgentConfig) (input : String ⊕ List AgentMessage) : LoopSt :=
  let messages := initialMessages cfg input
  let saved0 : List AgentMessage :=
    match input, cfg.saveFunction with
    | .inl _, some _ =>
        (match messages.getLast? with
         | some m => [m]
         | none => [])
    | _, _ => []
  { messages := messages, saved := saved0, events := [.start],
    lastResponse := none, generateCalls := 0 }

/-- The returned response with the measured latency stamped into meta
(agent.ts line 142). -/
def withLatency (lr : AgentResponse) (elapsed : Nat) : AgentResponse :=
  { lr with meta := { lr.meta with latency_ms := elapsed } }

/-- The final assistant message persisted at the end of a successful run
(agent.ts lines 147-152): content, usage and meta of the returned
response. -/
def finalMsgOf (lr : AgentResponse) : AgentMessage :=
  { role := "assistant", content := lr.content,
    usage := some lr.usage, meta := some lr.meta }

/-- Agent.run (agent.ts lines 15-160). elapsed is the measured wall-clock
latency stamped into meta at the end. The final assistant-message save is
wrapped in its own try/catch whose failure is only logged, so the hook
invocation is recorded and its outcome discarded; an error escaping the
while loop emits one execution_error event and re-raises. -/
def Agent.run (cfg : AgentConfig) (gen : Generate) (elapsed : Nat)
    (input : String ⊕ List AgentMessage) : RunTrace :=
  match runLoop cfg gen (maxIterationsOf cfg) (maxIterationsOf cfg) (initState cfg input) with
  | (st1, some e) =>
      { events := st1.events ++ [.error "execution_error" e],
        messages := st1.messages, saved := st1.saved,
        generateCalls := st1.generateCalls, result := .error e }
  | (st1, none) =>
      match st1.lastResponse with
      | none =>
          { events := st1.events, messages := st1.messages, saved := st1.saved,
            generateCalls := st1.generateCalls,
            result := .error "Agent failed to generate a response" }
      | some lr0 =>
          let lr := withLatency lr0 elapsed
          let saved2 := match cfg.saveFunction with
            | some _ => st1.saved ++ [finalMsgOf lr]
            | none => st1.saved
          { events := st1.events ++ [.response lr], messages := st1.messages,
            saved := saved2, generateCalls := st1.generateCalls, result := .ok lr }

/-! ## Derived observables and concrete artifacts used by the claims -/

/-- Whether an event is an error notification. -/
def AgentEvent.isError : AgentEvent → Bool
  | .error _ _ => true
  | _ => false

/-- Whether an event is a response notification. -/
def AgentEvent.isResponse : AgentEvent → Bool
  | .response _ => true
  | _ => false

/-- Whether an event is a tool-end notification. -/
def AgentEvent.isToolEnd : AgentEvent → Bool
  | .tool_end _ _ => true
  | _ => false

/-- Whether the last emitted event is a response notification. -/
def lastIsResponse (evs : List AgentEvent) : Bool :=
  match evs.getLast? with
  | some (.response _) => true
  | _ => false

/-- Whether the last emitted event is an error notification. -/
def lastIsError (evs : List AgentEvent) : Bool :=
  match evs.getLast? with
  | some (.error _ _) => true
  | _ => false

/-- The return value of the most recently successfully executed tool of a
turn, null when no dispatched tool succeeded — the quantity claim C10
describes. Failed executions and calls naming unknown tools leave the
accumulator untouched. -/
def lastSuccessResult (ts : List AgentTool) (calls : List ToolCall) : JSValue :=
  calls.foldl (fun acc call =>
    match ts.find? (fun t => some t.name == call.name) with
    | none => acc
    | some tool =>
        match tool.execute call.arguments with
        | .ok v => v
        | .error _ => acc) JSValue.null

/-- First delta of Scenario E: index 0, name fragment only. -/
def scenarioDeltaA : DeltaToolCall := { index := 0, fname := some "get_" }

/-- Second delta of Scenario E: rest of the name, first arguments piece. -/
def scenarioDeltaB : DeltaToolCall :=
  { index := 0, fname := some "weather", farguments := some "\x7b\"c" }

/-- Third delta of Scenario E: final arguments piece. -/
def scenarioDeltaC : DeltaToolCall := { index := 0, farguments := some "ity\":\"SF\"\x7d" }

/-- The Scenario E stream: three notifications, one fragment each. -/
def scenarioStream : List Chunk :=
  [{ tool_calls := some [scenarioDeltaA] },
   { tool_calls := some [scenarioDeltaB] },
   { tool_calls := some [scenarioDeltaC] }]

/-- A schema that rejects everything, standing for a mismatching zod schema. -/
def C2schema : OutputSchema := fun _ => .error "schema mismatch"

/-- A JSON.parse stand-in that parses the empty-object text and throws a
SyntaxError on everything else. -/
def C2parse : String → Except String JSValue := fun s =>
  if s = "\x7b\x7d" then .ok .objNil else .error "SyntaxError"

/-- A stream whose accumulated text is the empty-object JSON text. -/
def C2chunks : List Chunk := [{ content := some "\x7b\x7d" }]

/-- A JSON.parse stand-in that throws on every input. -/
def C2parseFail : String → Except String JSValue := fun _ => .error "SyntaxError"

/-- A concrete tool set for the C9 witness. -/
def C9tool : AgentTool := { name := "lookup", execute := fun _ => .ok (.str "v") }

/-- A call naming a tool that is not configured. -/
def C9call : ToolCall := { id := some "1", name := some "unknown" }

/-- An initial dispatch state for the C9 witness. -/
def C9st : DispatchState :=
  { messages := [], saved := [], events := [], lastToolResult := .null }

/-- A tool whose execution succeeds and returns null. -/
def C1tool : AgentTool := { name := "lookup", execute := fun _ => .ok .null }

/-- Configuration for the C1 counterexample: one tool, iteration cap 1. -/
def C1cfg : AgentConfig := { tools := some [C1tool], max_tool_iterations := some 1 }

/-- The single tool call issued by the C1 provider response. -/
def C1call : ToolCall := { id := some "1", name := some "lookup" }

/-- A provider that answers with the text "hello" and exactly one tool call. -/
def C1gen : Generate :=
  fun _ => ([], .ok { content := .str "hello", tool_calls := some [C1call] })

/-- A tool returning a non-null string, for the C1 witness. -/
def C1wTool : AgentTool := { name := "lookup", execute := fun _ => .ok (.str "42") }

/-- Configuration for the C1 witness. -/
def C1wCfg : AgentConfig := { tools := some [C1wTool], max_tool_iterations := some 1 }

/-- A provider answering "hello" with the single lookup call, for the C1
witness. -/
def C1wGen : Generate :=
  fun _ => ([], .ok { content := .str "hello", tool_calls := some [C1call] })

/-- A persistence hook that always fails. -/
def C4hook : AgentMessage → Except String Unit := fun _ => .error "disk full"

/-- A tool that succeeds, for the C4 counterexample. -/
def C4tool : AgentTool := { name := "t", execute := fun _ => .ok (.str "v") }

/-- The tool call issued by the C4 provider response. -/
def C4call : ToolCall := { id := some "1", name := some "t" }

/-- Configuration for the C4 counterexample: a failing hook is configured. -/
def C4cfg : AgentConfig :=
  { tools := some [C4tool], saveFunction := some C4hook, max_tool_iterations := some 1 }

/-- A provider answering with text and one tool call, for C4. -/
def C4gen : Generate :=
  fun _ => ([], .ok { content := .str "hello", tool_calls := some [C4call] })

/-- A hook that fails everywhere except on assistant tool-call messages:
it fails at exactly the three swallowed invocation points. -/
def C4wHook : AgentMessage → Except String Unit :=
  fun m => if m.tool_calls.isSome then .ok () else .error "disk full"

/-- Configuration for the C4 witness. -/
def C4wCfg : AgentConfig :=
  { tools := some [C4tool], saveFunction := some C4wHook, max_tool_iterations := some 1 }

/-- A tool whose execution raises, for the C5 counterexample. -/
def C5tool : AgentTool := { name := "t", execute := fun _ => .error "boom" }

/-- A persistence hook that always succeeds, for the C5 counterexample. -/
def C5hook : AgentMessage → Except String Unit := fun _ => .ok ()

/-- The tool call issued by the C5 provider response. -/
def C5call : ToolCall := { id := some "1", name := some "t" }

/-- Configuration for the C5 counterexample: failing tool, working hook. -/
def C5cfg : AgentConfig :=
  { tools := some [C5tool], saveFunction := some C5hook, max_tool_iterations := some 1 }

/-- A provider answering with text and the one failing tool call, for C5. -/
def C5gen : Generate :=
  fun _ => ([], .ok { content := .str "hello", tool_calls := some [C5call] })

/-- A provider for the C6 witness: one token, a plain text answer. -/
def C6wGen : Generate := fun _ => (["ok"], .ok { content := .str "ok" })

/-- An empty configuration (all defaults) for the C6 witness. -/
def C6wCfg : AgentConfig := {}

/-- A provider whose generate call fails, for the C7 witness. -/
def C7wGen : Generate := fun _ => ([], .error "network down")

/-- An empty configuration for the C7 witness. -/
def C7wCfg : AgentConfig := {}

/-- Configuration for the C8 counterexample: no tools, iteration cap 1. -/
def C8cfg : AgentConfig := { max_tool_iterations := some 1 }

/-- A provider whose response content is a structured object (as the
adapters return after successful structured-output parsing) with no tool
calls. -/
def C8gen : Generate := fun _ => ([], .ok { content := .objNil })

/-- A provider answering plain text with no tool calls, for the C8 witness. -/
def C8wGen : Generate := fun _ => ([], .ok { content := .str "same" })

/-- A tool returning a string, for the C10 witness. -/
def C10wTool : AgentTool := { name := "t", execute := fun _ => .ok (.str "out") }

/-- The tool call issued in the C10 witness run. -/
def C10wCall : ToolCall := { id := some "1", name := some "t" }

/-- Configuration for the C10 witness. -/
def C10wCfg : AgentConfig := { tools := some [C10wTool], max_tool_iterations := some 1 }

/-- A provider answering "hello" and the single call, for the C10 witness. -/
def C10wGen : Generate :=
  fun _ => ([], .ok { content := .str "hello", tool_calls := some [C10wCall] })

/-! ## Helper lemmas about tool dispatch -/

/-- Dispatching no calls is the identity. -/
theorem dispatchCalls_nil (sf : Option (AgentMessage → Except String Unit))
    (ts : List AgentTool) (st : DispatchState) : dispatchCalls sf ts [] st = st := rfl

/-- Dispatching a list of calls processes its head first. -/
theorem dispatchCalls_cons (sf : Option (AgentMessage → Except String Unit))
    (ts : List AgentTool) (c : ToolCall) (cs : List ToolCall) (st : DispatchState) :
    dispatchCalls sf ts (c :: cs) st = dispatchCalls sf ts cs (dispatchCall sf ts st c) := rfl

/-- lastToolResult after one call: updated exactly by a successful
execution of a found tool, regardless of what the persistence hook does. -/
theorem dispatchCall_lastToolResult (sf : Option (AgentMessage → Except String Unit))
    (ts : List AgentTool) (st : DispatchState) (call : ToolCall) :
    (dispatchCall sf ts st call).lastToolResult =
      (match ts.find? (fun t => some t.name == call.name) with
       | none => st.lastToolResult
       | some tool =>
           match tool.execute call.arguments with
           | .ok v => v
           | .error _ => st.lastToolResult) := by
  cases hf : ts.find? (fun t => some t.name == call.name) with
  | none => simp [dispatchCall, hf]
  | some tool =>
      cases hx : tool.execute call.arguments with
      | error e => simp [dispatchCall, hf, hx]
      | ok v =>
          cases sf with
          | none => simp [dispatchCall, hf, hx]
          | some f =>
              cases hs : f (toolResultMsg call tool.name v) <;>
                simp [dispatchCall, hf, hx, hs]

/-- lastToolResult after a whole turn is the fold claim C10 describes,
started from the state's current accumulator. -/
theorem dispatchCalls_lastToolResult (sf : Option (AgentMessage → Except String Unit))
    (ts : List AgentTool) (calls : List ToolCall) : ∀ st : DispatchState,
    (dispatchCalls sf ts calls st).lastToolResult =
      calls.foldl (fun acc call =>
        match ts.find? (fun t => some t.name == call.name) with
        | none => acc
        | some tool =>
            match tool.execute call.arguments with
            | .ok v => v
            | .error _ => acc) st.lastToolResult := by
  induction calls with
  | nil => intro st; rfl
  | cons c cs ih =>
      intro st
      rw [dispatchCalls_cons, List.foldl_cons, ih, dispatchCall_lastToolResult]

/-- One dispatched call only appends events, and none of them is an error
or a response notification. -/
theorem dispatchCall_events (sf : Option (AgentMessage → Except String Unit))
    (ts : List AgentTool) (st : DispatchState) (call : ToolCall) :
    ∃ evs, (dispatchCall sf ts st call).events = st.events ++ evs ∧
      evs.countP AgentEvent.isError = 0 ∧ evs.countP AgentEvent.isResponse = 0 := by
  cases hf : ts.find? (fun t => some t.name == call.name) with
  | none => exact ⟨[], by simp [dispatchCall, hf]⟩
  | some tool =>
      cases hx : tool.execute call.arguments with
      | error e =>
          refine ⟨[.tool_start tool.name call.arguments], ?_, ?_, ?_⟩ <;>
            simp [dispatchCall, hf, hx, List.countP_cons,
              AgentEvent.isError, AgentEvent.isResponse]
      | ok v =>
          have hcount :
              List.countP AgentEvent.isError
                  [AgentEvent.tool_start tool.name call.arguments,
                   AgentEvent.tool_end tool.name v] = 0 ∧
              List.countP AgentEvent.isResponse
                  [AgentEvent.tool_start tool.name call.arguments,
                   AgentEvent.tool_end tool.name v] = 0 := by
            constructor <;>
              simp [List.countP_cons, AgentEvent.isError, AgentEvent.isResponse]
          cases sf with
          | none =>
              exact ⟨_, by simp [dispatchCall, hf, hx], hcount.1, hcount.2⟩
          | some f =>
              cases hs : f (toolResultMsg call tool.name v) with
              | ok u => exact ⟨_, by simp [dispatchCall, hf, hx, hs], hcount.1, hcount.2⟩
              | error e => exact ⟨_, by simp [dispatchCall, hf, hx, hs], hcount.1, hcount.2⟩

/-- A whole dispatched turn only appends events, none of them an error or
a response notification. -/
theorem dispatchCalls_events (sf : Option (AgentMessage → Except String Unit))
    (ts : List AgentTool) (calls : List ToolCall) : ∀ st : DispatchState,
    ∃ evs, (dispatchCalls sf ts calls st).events = st.events ++ evs ∧
      evs.countP AgentEvent.isError = 0 ∧ evs.countP AgentEvent.isResponse = 0 := by
  induction calls with
  | nil => intro st; exact ⟨[], by simp [dispatchCalls_nil], rfl, rfl⟩
  | cons c cs ih =>
      intro st
      obtain ⟨evs1, h1, he1, hr1⟩ := dispatchCall_events sf ts st c
      obtain ⟨evs2, h2, he2, hr2⟩ := ih (dispatchCall sf ts st c)
      refine ⟨evs1 ++ evs2, ?_, ?_, ?_⟩
      · rw [dispatchCalls_cons, h2, h1, List.append_assoc]
      · simp [List.countP_append, he1, he2]
      · simp [List.countP_append, hr1, hr2]

/-! ## Helper lemmas about the while loop -/

/-- Token events are neither error nor response notifications. -/
theorem countP_map_token (toks : List String) :
    (toks.map AgentEvent.token).countP AgentEvent.isError = 0 ∧
    (toks.map AgentEvent.token).countP AgentEvent.isResponse = 0 := by
  constructor <;>
    (rw [List.countP_eq_zero]
     intro a ha
     obtain ⟨t, ht, rfl⟩ := List.mem_map.mp ha
     simp [AgentEvent.isError, AgentEvent.isResponse])

/-- One pass of the while loop either recurses with one more generate call
behind it, only token/tool events appended and a response recorded, or
exits; an exit without a thrown error always carries a recorded response. -/
theorem runLoop_succ_cases (cfg : AgentConfig) (gen : Generate) (mi fuel : Nat)
    (st : LoopSt) :
    (∃ st1, runLoop cfg gen mi (fuel+1) st = runLoop cfg gen mi fuel st1 ∧
        st1.generateCalls = st.generateCalls + 1 ∧
        (∃ evs, st1.events = st.events ++ evs ∧
          evs.countP AgentEvent.isError = 0 ∧ evs.countP AgentEvent.isResponse = 0) ∧
        st1.lastResponse.isSome = true) ∨
    (∃ st1 th, runLoop cfg gen mi (fuel+1) st = (st1, th) ∧
        st1.generateCalls = st.generateCalls + 1 ∧
        (∃ evs, st1.events = st.events ++ evs ∧
          evs.countP AgentEvent.isError = 0 ∧ evs.countP AgentEvent.isResponse = 0) ∧
        (th = none → st1.lastResponse.isSome = true)) := by
  cases hg : gen st.messages with
  | mk toks res =>
    have htok := countP_map_token toks
    cases res with
    | error e =>
        right
        refine ⟨{ st with events := st.events ++ toks.map AgentEvent.token,
                          generateCalls := st.generateCalls + 1 }, some e,
                by simp [runLoop, hg], rfl,
                ⟨toks.map AgentEvent.token, rfl, htok.1, htok.2⟩, by simp⟩
    | ok response =>
      cases ht : response.tool_calls with
      | none =>
          right
          refine ⟨{ st with events := st.events ++ toks.map AgentEvent.token,
                            lastResponse := some (captureMessage response),
                            generateCalls := st.generateCalls + 1 }, none,
                  by simp [runLoop, hg, ht], rfl,
                  ⟨toks.map AgentEvent.token, rfl, htok.1, htok.2⟩, by simp⟩
      | some tcs =>
        cases hc : cfg.tools with
        | none =>
            right
            refine ⟨{ st with events := st.events ++ toks.map AgentEvent.token,
                              lastResponse := some (captureMessage response),
                              generateCalls := st.generateCalls + 1 }, none,
                    by simp [runLoop, hg, ht, hc], rfl,
                    ⟨toks.map AgentEvent.token, rfl, htok.1, htok.2⟩, by simp⟩
        | some tools =>
          cases hsf : cfg.saveFunction with
          | none =>
              left
              obtain ⟨evsD, hD, heD, hrD⟩ := dispatchCalls_events none tools tcs
                { messages := st.messages ++ [assistantMsgOf response tcs],
                  saved := st.saved,
                  events := st.events ++ toks.map AgentEvent.token,
                  lastToolResult := JSValue.null }
              refine ⟨afterTurnState response mi (st.generateCalls + 1)
                        (dispatchCalls none tools tcs
                          { messages := st.messages ++ [assistantMsgOf response tcs],
                            saved := st.saved,
                            events := st.events ++ toks.map AgentEvent.token,
                            lastToolResult := JSValue.null }),
                      by simp [runLoop, hg, ht, hc, hsf], rfl,
                      ⟨toks.map AgentEvent.token ++ evsD, ?_, ?_, ?_⟩, rfl⟩
              · show (dispatchCalls none tools tcs _).events = _
                rw [hD]
                simp
              · simp [List.countP_append, htok.1, heD]
              · simp [List.countP_append, htok.2, hrD]
          | some f =>
            cases hs : f (assistantMsgOf response tcs) with
            | error e =>
                right
                refine ⟨{ st with
                            messages := st.messages ++ [assistantMsgOf response tcs],
                            saved := st.saved ++ [assistantMsgOf response tcs],
                            events := st.events ++ toks.map AgentEvent.token,
                            generateCalls := st.generateCalls + 1 }, some e,
                        by simp [runLoop, hg, ht, hc, hsf, hs], rfl,
                        ⟨toks.map AgentEvent.token, rfl, htok.1, htok.2⟩, by simp⟩
            | ok u =>
                left
                obtain ⟨evsD, hD, heD, hrD⟩ := dispatchCalls_events (some f) tools tcs
                  { messages := st.messages ++ [assistantMsgOf response tcs],
                    saved := st.saved ++ [assistantMsgOf response tcs],
                    events := st.events ++ toks.map AgentEvent.token,
                    lastToolResult := JSValue.null }
                refine ⟨afterTurnState response mi (st.generateCalls + 1)
                          (dispatchCalls (some f) tools tcs
                            { messages := st.messages ++ [assistantMsgOf response tcs],
                              saved := st.saved ++ [assistantMsgOf response tcs],
                              events := st.events ++ toks.map AgentEvent.token,
                              lastToolResult := JSValue.null }),
                        by simp [runLoop, hg, ht, hc, hsf, hs], rfl,
                        ⟨toks.map AgentEvent.token ++ evsD, ?_, ?_, ?_⟩, rfl⟩
                · show (dispatchCalls (some f) tools tcs _).events = _
                  rw [hD]
                  simp
                · simp [List.countP_append, htok.1, heD]
                · simp [List.countP_append, htok.2, hrD]

/-- The loop performs at most fuel further generate calls. -/
theorem runLoop_generateCalls (cfg : AgentConfig) (gen : Generate) (mi : Nat) :
    ∀ (fuel : Nat) (st : LoopSt),
      (runLoop cfg gen mi fuel st).1.generateCalls ≤ st.generateCalls + fuel := by
  intro fuel
  induction fuel with
  | zero => intro st; simp [runLoop]
  | succ fuel ih =>
      intro st
      rcases runLoop_succ_cases cfg gen mi fuel st with
        ⟨st1, heq, hgc, _, _⟩ | ⟨st1, th, heq, hgc, _, _⟩
      · rw [heq]
        have := ih st1
        omega
      · rw [heq]
        show st1.generateCalls ≤ st.generateCalls + (fuel + 1)
        omega

/-- The loop only appends events, and it never emits an error or a
response notification itself (those fire after the loop, in Agent.run). -/
theorem runLoop_events (cfg : AgentConfig) (gen : Generate) (mi : Nat) :
    ∀ (fuel : Nat) (st : LoopSt),
      ∃ evs, (runLoop cfg gen mi fuel st).1.events = st.events ++ evs ∧
        evs.countP AgentEvent.isError = 0 ∧ evs.countP AgentEvent.isResponse = 0 := by
  intro fuel
  induction fuel with
  | zero => intro st; exact ⟨[], by simp [runLoop], rfl, rfl⟩
  | succ fuel ih =>
      intro st
      rcases runLoop_succ_cases cfg gen mi fuel st with
        ⟨st1, heq, _, ⟨evs1, hev1, he1, hr1⟩, _⟩ | ⟨st1, th, heq, _, ⟨evs1, hev1, he1, hr1⟩, _⟩
      · obtain ⟨evs2, hev2, he2, hr2⟩ := ih st1
        refine ⟨evs1 ++ evs2, ?_, ?_, ?_⟩
        · rw [heq, hev2, hev1, List.append_assoc]
        · simp [List.countP_append, he1, he2]
        · simp [List.countP_append, hr1, hr2]
      · exact ⟨evs1, by rw [heq]; exact hev1, he1, hr1⟩

/-- When the loop exits without a thrown error and had at least one
iteration of budget (or already carried a response), a response has been
recorded. -/
theorem runLoop_lastResponse (cfg : AgentConfig) (gen : Generate) (mi : Nat) :
    ∀ (fuel : Nat) (st : LoopSt),
      (runLoop cfg gen mi fuel st).2 = none →
      (st.lastResponse.isSome = true ∨ 1 ≤ fuel) →
      ((runLoop cfg gen mi fuel st).1.lastResponse).isSome = true := by
  intro fuel
  induction fuel with
  | zero =>
      intro st _ hd
      rcases hd with h | h
      · simpa [runLoop] using h
      · omega
  | succ fuel ih =>
      intro st hnone _
      rcases runLoop_succ_cases cfg gen mi fuel st with
        ⟨st1, heq, _, _, hlr⟩ | ⟨st1, th, heq, _, _, himp⟩
      · rw [heq] at hnone ⊢
        exact ih st1 hnone (Or.inl hlr)
      · rw [heq] at hnone ⊢
        exact himp hnone

/-- When the provider always settles successfully and the hook never
fails on a message carrying tool calls (the assistant tool-call message
is the only such message it is ever invoked with), nothing is thrown out
of the loop. -/
theorem runLoop_no_throw (cfg : AgentConfig) (gen : Generate) (mi : Nat)
    (hgen : ∀ h, ∃ r, (gen h).2 = Except.ok r)
    (hsave : ∀ f, cfg.saveFunction = some f →
      ∀ m, m.tool_calls.isSome = true → (f m).isOk = true) :
    ∀ (fuel : Nat) (st : LoopSt), (runLoop cfg gen mi fuel st).2 = none := by
  intro fuel
  induction fuel with
  | zero => intro st; simp [runLoop]
  | succ fuel ih =>
      intro st
      obtain ⟨r, hr⟩ := hgen st.messages
      cases hg : gen st.messages with
      | mk toks res =>
        rw [hg] at hr
        simp only at hr
        subst hr
        cases ht : r.tool_calls with
        | none => simp [runLoop, hg, ht]
        | some tcs =>
          cases hc : cfg.tools with
          | none => simp [runLoop, hg, ht, hc]
          | some tools =>
            cases hsf : cfg.saveFunction with
            | none =>
                simp only [runLoop, hg, ht, hc, hsf]
                exact ih _
            | some f =>
                have hok := hsave f hsf (assistantMsgOf r tcs) (by simp [assistantMsgOf])
                cases hs : f (assistantMsgOf r tcs) with
                | error e => rw [hs] at hok; simp [Except.isOk, Except.toBool] at hok
                | ok u =>
                    simp only [runLoop, hg, ht, hc, hsf, hs]
                    exact ih _

/-- The effective iteration ceiling is always at least one. -/
theorem one_le_maxIterationsOf (cfg : AgentConfig) : 1 ≤ maxIterationsOf cfg := by
  cases h : cfg.max_tool_iterations with
  | none => simp [maxIterationsOf, h]
  | some n =>
      by_cases h0 : n = 0
      · simp [maxIterationsOf, h, h0]
      · simp only [maxIterationsOf, h, if_neg h0]
        omega

/-! ## Bridging lemmas between Agent.run and the loop -/

/-- The message capture never changes the content. -/
theorem captureMessage_content (r : AgentResponse) :
    (captureMessage r).content = r.content := by
  cases h : r.content <;> simp [captureMessage, h]

/-- The message capture records string content in the message field. -/
theorem captureMessage_of_str (r : AgentResponse) (s : String)
    (h : r.content = .str s) :
    captureMessage r = { r with message := some s } := by
  simp [captureMessage, h]

/-- The run trace when the loop exits normally with a recorded response. -/
theorem run_trace_of_loop_ok (cfg : AgentConfig) (gen : Generate) (elapsed : Nat)
    (input : String ⊕ List AgentMessage) (mi : Nat) (st1 : LoopSt) (lr : AgentResponse)
    (hmi : maxIterationsOf cfg = mi)
    (hlp : runLoop cfg gen mi mi (initState cfg input) = (st1, none))
    (hlr : st1.lastResponse = some lr) :
    Agent.run cfg gen elapsed input =
      { events := st1.events ++ [.response (withLatency lr elapsed)],
        messages := st1.messages,
        saved := st1.saved ++ (match cfg.saveFunction with
                               | some _ => [finalMsgOf (withLatency lr elapsed)]
                               | none => []),
        generateCalls := st1.generateCalls,
        result := Except.ok (withLatency lr elapsed) } := by
  subst hmi
  cases hsf : cfg.saveFunction <;> simp [Agent.run, hlp, hlr, hsf]

/-- The run trace when an error escapes the loop: one execution_error
event is appended and the error re-raised. -/
theorem run_trace_of_loop_throw (cfg : AgentConfig) (gen : Generate) (elapsed : Nat)
    (input : String ⊕ List AgentMessage) (mi : Nat) (st1 : LoopSt) (e : String)
    (hmi : maxIterationsOf cfg = mi)
    (hlp : runLoop cfg gen mi mi (initState cfg input) = (st1, some e)) :
    Agent.run cfg gen elapsed input =
      { events := st1.events ++ [.error "execution_error" e],
        messages := st1.messages, saved := st1.saved,
        generateCalls := st1.generateCalls,
        result := Except.error e } := by
  subst hmi
  simp [Agent.run, hlp]

/-- A single-budget pass with no tool calls in the response exits at once
with the captured response. -/
theorem runLoop_one_no_tools (cfg : AgentConfig) (gen : Generate) (mi fuel : Nat)
    (st : LoopSt) (toks : List String) (resp : AgentResponse)
    (hg : gen st.messages = (toks, Except.ok resp))
    (htc : resp.tool_calls = none) :
    runLoop cfg gen mi (fuel+1) st =
      ({ st with events := st.events ++ toks.map AgentEvent.token,
                 lastResponse := some (captureMessage resp),
                 generateCalls := st.generateCalls + 1 }, none) := by
  simp [runLoop, hg, htc]

/-- A single-budget pass with tool calls, a configured tool set, and a
hook that does not fail on the assistant tool-call message: the turn is
dispatched and the loop exits with the (possibly overwritten) response. -/
theorem runLoop_one_tools (cfg : AgentConfig) (gen : Generate) (st : LoopSt)
    (toks : List String) (resp : AgentResponse) (calls : List ToolCall)
    (ts : List AgentTool)
    (h2 : cfg.tools = some ts)
    (hg : gen st.messages = (toks, Except.ok resp))
    (htc : resp.tool_calls = some calls)
    (hsaveOk : ∀ f, cfg.saveFunction = some f →
      (f (assistantMsgOf resp calls)).isOk = true) :
    runLoop cfg gen 1 1 st =
      (afterTurnState resp 1 (st.generateCalls + 1)
        (dispatchCalls cfg.saveFunction ts calls
          { messages := st.messages ++ [assistantMsgOf resp calls],
            saved := st.saved ++ (match cfg.saveFunction with
                                  | some _ => [assistantMsgOf resp calls]
                                  | none => []),
            events := st.events ++ toks.map AgentEvent.token,
            lastToolResult := JSValue.null }), none) := by
  cases hsf : cfg.saveFunction with
  | none => simp [runLoop, hg, htc, h2, hsf]
  | some f =>
      have hok := hsaveOk f hsf
      cases hs : f (assistantMsgOf resp calls) with
      | error e => rw [hs] at hok; simp [Except.isOk, Except.toBool] at hok
      | ok u => simp [runLoop, hg, htc, h2, hsf, hs]

/-- A single-budget pass with tool calls where the hook fails on the
assistant tool-call message: the exception escapes the loop. -/
theorem runLoop_one_tools_throw (cfg : AgentConfig) (gen : Generate) (st : LoopSt)
    (toks : List String) (resp : AgentResponse) (calls : List ToolCall)
    (ts : List AgentTool) (f : AgentMessage → Except String Unit) (e : String)
    (h2 : cfg.tools = some ts)
    (hg : gen st.messages = (toks, Except.ok resp))
    (htc : resp.tool_calls = some calls)
    (hsf : cfg.saveFunction = some f)
    (hs : f (assistantMsgOf resp calls) = Except.error e) :
    runLoop cfg gen 1 1 st =
      ({ st with messages := st.messages ++ [assistantMsgOf resp calls],
                 saved := st.saved ++ [assistantMsgOf resp calls],
                 events := st.events ++ toks.map AgentEvent.token,
                 generateCalls := st.generateCalls + 1 }, some e) := by
  simp [runLoop, hg, htc, h2, hsf, hs]

/-- Dispatching a single call whose tool raises: tool_start fires, no
tool_end, the error tool message is appended and nothing is persisted. -/
theorem dispatchCalls_single_fail (sf : Option (AgentMessage → Except String Unit))
    (ts : List AgentTool) (st : DispatchState) (call : ToolCall)
    (tool : AgentTool) (e : String)
    (hfind : ts.find? (fun t => some t.name == call.name) = some tool)
    (hex : tool.execute call.arguments = .error e) :
    dispatchCalls sf ts [call] st =
      { st with events := st.events ++ [.tool_start tool.name call.arguments],
                messages := st.messages ++ [errorToolMsg call tool.name e] } := by
  show dispatchCall sf ts st call = _
  simp [dispatchCall, hfind, hex]

/-- Starting the turn with a null accumulator, lastToolResult after the
turn is exactly lastSuccessResult. -/
theorem dispatch_ltr_null (sf : Option (AgentMessage → Except String Unit))
    (ts : List AgentTool) (calls : List ToolCall) (st : DispatchState)
    (h : st.lastToolResult = JSValue.null) :
    (dispatchCalls sf ts calls st).lastToolResult = lastSuccessResult ts calls := by
  rw [dispatchCalls_lastToolResult, h]
  rfl

/-- Appending a response notification makes it the last event. -/
theorem lastIsResponse_concat (evs : List AgentEvent) (r : AgentResponse) :
    lastIsResponse (evs ++ [.response r]) = true := by
  simp [lastIsResponse, List.getLast?_concat]

/-- Appending an error notification makes it the last event. -/
theorem lastIsError_concat (evs : List AgentEvent) (k m : String) :
    lastIsError (evs ++ [.error k m]) = true := by
  simp [lastIsError, List.getLast?_concat]

/-- The only message the hook may have been invoked with before the loop
starts is the initial user message. -/
theorem initState_saved_roles (cfg : AgentConfig)
    (input : String ⊕ List AgentMessage) :
    ∀ m ∈ (initState cfg input).saved, m.role = "user" := by
  intro m hm
  cases input with
  | inl s =>
      cases hsf : cfg.saveFunction with
      | none => simp [initState, hsf] at hm
      | some f =>
          simp [initState, initialMessages, hsf] at hm
          subst hm
          rfl
  | inr hist =>
      cases hsf : cfg.saveFunction with
      | none => simp [initState, hsf] at hm
      | some f => simp [initState, hsf] at hm

/-- The common shape of a successful single-iteration run whose response
carries tool calls: the returned content is the provider's content unless
the most recent successful tool result is non-null, in which case it is
that result; the message field is the captured original text. -/
theorem run_one_tools_result (cfg : AgentConfig) (gen : Generate) (elapsed : Nat)
    (input : String ⊕ List AgentMessage) (toks : List String) (resp : AgentResponse)
    (calls : List ToolCall) (ts : List AgentTool)
    (h1 : cfg.max_tool_iterations = some 1)
    (h2 : cfg.tools = some ts)
    (hgen : gen (initialMessages cfg input) = (toks, Except.ok resp))
    (htc : resp.tool_calls = some calls) :
    ∀ r, (Agent.run cfg gen elapsed input).result = Except.ok r →
      r.content = (if lastSuccessResult ts calls = JSValue.null then resp.content
                   else lastSuccessResult ts calls) ∧
      r.message = (captureMessage resp).message := by
  have hmi : maxIterationsOf cfg = 1 := by simp [maxIterationsOf, h1]
  have hgen0 : gen (initState cfg input).messages = (toks, Except.ok resp) := hgen
  intro r hr
  have main : ∀ (hsaveOk : ∀ f, cfg.saveFunction = some f →
      (f (assistantMsgOf resp calls)).isOk = true),
      r.content = (if lastSuccessResult ts calls = JSValue.null then resp.content
                   else lastSuccessResult ts calls) ∧
      r.message = (captureMessage resp).message := by
    intro hsaveOk
    have hlp := runLoop_one_tools cfg gen (initState cfg input) toks resp calls ts
      h2 hgen0 htc hsaveOk
    have htr := run_trace_of_loop_ok cfg gen elapsed input 1 _ _ hmi hlp rfl
    rw [htr] at hr
    have hreq := Except.ok.inj hr
    subst hreq
    have hltr := dispatch_ltr_null cfg.saveFunction ts calls
      { messages := (initState cfg input).messages ++ [assistantMsgOf resp calls],
        saved := (initState cfg input).saved ++
          (match cfg.saveFunction with
           | some _ => [assistantMsgOf resp calls]
           | none => []),
        events := (initState cfg input).events ++ toks.map AgentEvent.token,
        lastToolResult := JSValue.null } rfl
    constructor
    · simp only [withLatency, afterTurnState]
      rw [hltr]
      by_cases hn : lastSuccessResult ts calls = JSValue.null
      · simp [hn, captureMessage_content]
      · simp [hn]
    · simp only [withLatency, afterTurnState]
      rw [hltr]
      by_cases hn : lastSuccessResult ts calls = JSValue.null
      · simp [hn]
      · simp [hn]
  cases hsf : cfg.saveFunction with
  | none =>
      exact main (fun f hf => by rw [hsf] at hf; exact Option.noConfusion hf)
  | some f =>
      cases hs : f (assistantMsgOf resp calls) with
      | ok u =>
          exact main (fun f' hf' => by
            rw [hsf] at hf'
            cases Option.some.inj hf'
            rw [hs]
            rfl)
      | error e =>
          have hlp := runLoop_one_tools_throw cfg gen (initState cfg input) toks resp
            calls ts f e h2 hgen0 htc hsf hs
          have htr := run_trace_of_loop_throw cfg gen elapsed input 1 _ e hmi hlp
          rw [htr] at hr
          exact Except.noConfusion hr

/-! ## The claims -/

/-- Claim C3: on the exact Scenario E deltas the accumulator does produce the
name get_weather, but because the first fragment carries no arguments string,
the JavaScript += coerces the undefined stored arguments to the text
"undefined" before appending, so the accumulated arguments string is
undefined-prefixed and is not the JSON text the claim expects (JSON.parse of
it then throws while mapping the accumulated call, failing the generate
call). -/
theorem C3_indexed_fragment_accumulation :
    (accumulate scenarioStream).toolCalls =
      [some { index := 0, id := none, fname := some "get_weather",
              farguments := some "undefined\x7b\"city\":\"SF\"\x7d" }] ∧
    "undefined\x7b\"city\":\"SF\"\x7d" ≠ "\x7b\"city\":\"SF\"\x7d" := by
  exact ⟨rfl, by decide⟩

/-- Claim C2 (amended): when a schema was requested and no tool call
accumulated, the generate call always still succeeds; on JSON parse failure
the raw accumulated text is returned unchanged, but on schema-validation
failure the content is the already parsed value (finalContent was reassigned
before validation ran), not the raw text. -/
theorem C2_structured_output_policy (model : String) (schema : OutputSchema)
    (jsonParse : String → Except String JSValue) (chunks : List Chunk)
    (hempty : (accumulate chunks).toolCalls = []) :
    (Provider.generate model (some schema) jsonParse chunks).2 =
      .ok { content :=
              match jsonParse (accumulate chunks).fullContent with
              | .ok v => v
              | .error _ => .str (accumulate chunks).fullContent,
            tool_calls := none,
            usage := (accumulate chunks).usage,
            meta := { model := model, latency_ms := 0 } } := by
  simp only [Provider.generate, finalizeContent, mapToolCalls, hempty]
  cases h : jsonParse (accumulate chunks).fullContent with
  | error e => rfl
  | ok v => cases h2 : schema v <;> simp [h2]

/-- Claim C2 counterexample: with a schema that rejects the (successfully
parsed) empty object, the call succeeds but returns the parsed object as
content — not the raw accumulated text unchanged, as the claim states. -/
theorem C2_counterexample :
    (Provider.generate "m" (some C2schema) C2parse C2chunks).2 =
      .ok { content := .objNil, tool_calls := none, usage := {},
            meta := { model := "m", latency_ms := 0 } } ∧
    JSValue.objNil ≠ .str "\x7b\x7d" := by
  exact ⟨rfl, by decide⟩

/-- Claim C2 witness: a parse failure on the accumulated text "hi" leaves the
raw text unchanged as content and the call still succeeds. -/
theorem C2_witness :
    (Provider.generate "m" (some C2schema) C2parseFail [{ content := some "hi" }]).2 =
      .ok { content := .str "hi", tool_calls := none, usage := {},
            meta := { model := "m", latency_ms := 0 } } :=
  C2_structured_output_policy "m" C2schema C2parseFail [{ content := some "hi" }] rfl

/-- Claim C9: a tool call whose name matches no configured tool leaves the
dispatch state untouched — no tool_start or tool_end event, no appended or
persisted message, no lastToolResult update — and the loop proceeds with the
remaining calls exactly as if the unknown call were absent. -/
theorem C9_unknown_tool_skipped (sf : Option (AgentMessage → Except String Unit))
    (ts : List AgentTool) (st : DispatchState) (call : ToolCall) (rest : List ToolCall)
    (hfind : ts.find? (fun t => some t.name == call.name) = none) :
    dispatchCall sf ts st call = st ∧
    dispatchCalls sf ts (call :: rest) st = dispatchCalls sf ts rest st := by
  have h1 : dispatchCall sf ts st call = st := by
    unfold dispatchCall
    rw [hfind]
  refine ⟨h1, ?_⟩
  unfold dispatchCalls
  rw [List.foldl_cons, h1]

/-- Claim C9 witness: the unknown call "unknown" against the tool set
containing only "lookup" is skipped. -/
theorem C9_witness :
    dispatchCall none [C9tool] C9st C9call = C9st ∧
    dispatchCalls none [C9tool] [C9call] C9st = dispatchCalls none [C9tool] [] C9st :=
  C9_unknown_tool_skipped none [C9tool] C9st C9call [] rfl

/-- Claim C1 counterexample: the single tool call executes successfully and
returns null, but because the overwrite is guarded by lastToolResult !== null
(agent.ts line 115) the returned content stays the model's text "hello"
rather than the tool's return value null. -/
theorem C1_counterexample :
    (Agent.run C1cfg C1gen 5 (Sum.inl "hi")).result =
      .ok { content := .str "hello", tool_calls := some [C1call],
            message := some "hello", usage := {}, meta := { latency_ms := 5 } } ∧
    JSValue.str "hello" ≠ JSValue.null := by
  exact ⟨rfl, by decide⟩

/-- Claim C1 (amended): for a single-iteration run whose provider response
carries the original text and exactly one tool call whose tool executes
successfully returning a NON-NULL value, the returned content is that value
and the message field is the original text. The non-null requirement is
forced by the lastToolResult !== null guard the counterexample exhibits. -/
theorem C1_single_tool_roundtrip (cfg : AgentConfig) (gen : Generate) (elapsed : Nat)
    (input : String ⊕ List AgentMessage) (toks : List String) (resp : AgentResponse)
    (call : ToolCall) (ts : List AgentTool) (tool : AgentTool) (s : String) (v : JSValue)
    (h1 : cfg.max_tool_iterations = some 1)
    (h2 : cfg.tools = some ts)
    (hgen : gen (initialMessages cfg input) = (toks, Except.ok resp))
    (hc : resp.content = .str s)
    (htc : resp.tool_calls = some [call])
    (hfind : ts.find? (fun t => some t.name == call.name) = some tool)
    (hex : tool.execute call.arguments = .ok v)
    (hv : v ≠ .null) :
    ∀ r, (Agent.run cfg gen elapsed input).result = Except.ok r →
      r.content = v ∧ r.message = some s := by
  intro r hr
  have h := run_one_tools_result cfg gen elapsed input toks resp [call] ts
    h1 h2 hgen htc r hr
  have hlsr : lastSuccessResult ts [call] = v := by
    simp [lastSuccessResult, hfind, hex]
  rw [hlsr] at h
  refine ⟨?_, ?_⟩
  · rw [h.1, if_neg hv]
  · rw [h.2, captureMessage_of_str resp s hc]

/-- Claim C1 witness: a run with the single lookup call returning the string
"42"; content becomes "42" while message keeps the original "hello". -/
theorem C1_witness :
    (Agent.run C1wCfg C1wGen 5 (Sum.inl "hi")).result =
      Except.ok { content := .str "42", tool_calls := some [C1call],
                  message := some "hello", usage := {}, meta := { latency_ms := 5 } } ∧
    (({ content := .str "42", tool_calls := some [C1call], message := some "hello",
        usage := {}, meta := { latency_ms := 5 } } : AgentResponse).content = .str "42" ∧
     ({ content := .str "42", tool_calls := some [C1call], message := some "hello",
        usage := {}, meta := { latency_ms := 5 } } : AgentResponse).message = some "hello") :=
  ⟨rfl, C1_single_tool_roundtrip C1wCfg C1wGen 5 (Sum.inl "hi") []
    { content := .str "hello", tool_calls := some [C1call] } C1call [C1wTool] C1wTool
    "hello" (.str "42") rfl rfl rfl rfl rfl rfl rfl (by decide) _ rfl⟩

/-- Claim C10: with a single-iteration run whose response carries tool
calls, the returned content is overwritten exactly when the most recently
successfully executed tool returned a non-null value, and otherwise stays
the provider's original content. -/
theorem C10_content_overwrite_policy (cfg : AgentConfig) (gen : Generate)
    (elapsed : Nat) (input : String ⊕ List AgentMessage) (toks : List String)
    (resp : AgentResponse) (calls : List ToolCall) (ts : List AgentTool)
    (h1 : cfg.max_tool_iterations = some 1)
    (h2 : cfg.tools = some ts)
    (hgen : gen (initialMessages cfg input) = (toks, Except.ok resp))
    (htc : resp.tool_calls = some calls) :
    ∀ r, (Agent.run cfg gen elapsed input).result = Except.ok r →
      r.content = (if lastSuccessResult ts calls = JSValue.null then resp.content
                   else lastSuccessResult ts calls) := by
  intro r hr
  exact (run_one_tools_result cfg gen elapsed input toks resp calls ts
    h1 h2 hgen htc r hr).1

/-- Claim C10 witness: the single call's tool returns the non-null string
"out", so the returned content is "out" rather than the original "hello". -/
theorem C10_witness :
    (Agent.run C10wCfg C10wGen 4 (Sum.inl "go")).result =
      Except.ok { content := .str "out", tool_calls := some [C10wCall],
                  message := some "hello", usage := {}, meta := { latency_ms := 4 } } ∧
    ({ content := .str "out", tool_calls := some [C10wCall], message := some "hello",
       usage := {}, meta := { latency_ms := 4 } } : AgentResponse).content =
      (if lastSuccessResult [C10wTool] [C10wCall] = JSValue.null
       then ({ content := .str "hello", tool_calls := some [C10wCall] } :
              AgentResponse).content
       else lastSuccessResult [C10wTool] [C10wCall]) :=
  ⟨rfl, C10_content_overwrite_policy C10wCfg C10wGen 4 (Sum.inl "go") []
    { content := .str "hello", tool_calls := some [C10wCall] } [C10wCall] [C10wTool]
    rfl rfl rfl rfl _ rfl⟩

/-- Claim C8 counterexample: with no tool calls but non-textual content, the
message field is never set (the capture at agent.ts lines 60-62 only runs on
string content), so content and message are not identical text: message is
absent while content is an object. -/
theorem C8_counterexample :
    (Agent.run C8cfg C8gen 7 (Sum.inl "hi")).result =
      .ok { content := .objNil, tool_calls := none, message := none,
            usage := {}, meta := { latency_ms := 7 } } ∧
    JSValue.isStr .objNil = false := by
  exact ⟨rfl, rfl⟩

/-- Claim C8 (amended): for a single-iteration run whose provider response
carries no tool calls and whose content is text, the returned content and
message are the same text. The textuality requirement is forced by the
counterexample: non-string content leaves message unset. -/
theorem C8_no_tools_roundtrip (cfg : AgentConfig) (gen : Generate) (elapsed : Nat)
    (input : String ⊕ List AgentMessage) (toks : List String) (resp : AgentResponse)
    (s : String)
    (h1 : cfg.max_tool_iterations = some 1)
    (hgen : gen (initialMessages cfg input) = (toks, Except.ok resp))
    (htc : resp.tool_calls = none)
    (hc : resp.content = .str s) :
    (Agent.run cfg gen elapsed input).result =
      Except.ok (withLatency { resp with message := some s } elapsed) ∧
    (withLatency { resp with message := some s } elapsed).content = .str s ∧
    (withLatency { resp with message := some s } elapsed).message = some s := by
  have hmi : maxIterationsOf cfg = 1 := by simp [maxIterationsOf, h1]
  have hgen0 : gen (initState cfg input).messages = (toks, Except.ok resp) := hgen
  have hlp := runLoop_one_no_tools cfg gen 1 0 (initState cfg input) toks resp hgen0 htc
  have htr := run_trace_of_loop_ok cfg gen elapsed input 1 _ _ hmi hlp rfl
  rw [captureMessage_of_str resp s hc] at htr
  exact ⟨by rw [htr], hc, rfl⟩

/-- Claim C8 witness: plain text "same" with no tool calls round-trips into
both content and message. -/
theorem C8_witness :
    (Agent.run C8cfg C8wGen 2 (Sum.inl "hi")).result =
      Except.ok (withLatency { content := .str "same", message := some "same" } 2) ∧
    (withLatency ({ content := .str "same", message := some "same" } : AgentResponse)
      2).content = .str "same" ∧
    (withLatency ({ content := .str "same", message := some "same" } : AgentResponse)
      2).message = some "same" :=
  C8_no_tools_roundtrip C8cfg C8wGen 2 (Sum.inl "hi") [] { content := .str "same" }
    "same" rfl rfl rfl rfl

/-- Claim C4 counterexample: the hook failure on the initial user message is
swallowed, but the very same failing hook invoked on the assistant tool-call
message (agent.ts line 75, the one invocation not wrapped in its own
try/catch) aborts the run: the result is the re-raised error, an error
notification fires and no response notification ever does. -/
theorem C4_counterexample :
    (Agent.run C4cfg C4gen 0 (Sum.inl "x")).result = .error "disk full" ∧
    (Agent.run C4cfg C4gen 0 (Sum.inl "x")).events =
      [.start, .error "execution_error" "disk full"] := by
  exact ⟨rfl, rfl⟩

/-- Claim C4 (amended): hook failures at the initial-user-message point, the
tool-result-message point (where the per-call catch converts them into an
error tool message) and the final-assistant-message point are swallowed and
the run still reaches its response notification; only a failure on the
assistant tool-call message aborts. Formally: when generation always
succeeds and the hook never fails on a message carrying tool calls, the run
resolves and its last event is the response notification, whatever the hook
does elsewhere. -/
theorem C4_hook_failure_policy (cfg : AgentConfig) (gen : Generate) (elapsed : Nat)
    (input : String ⊕ List AgentMessage)
    (hgen : ∀ h, ∃ r, (gen h).2 = Except.ok r)
    (hsave : ∀ f, cfg.saveFunction = some f →
      ∀ m, m.tool_calls.isSome = true → (f m).isOk = true) :
    ((Agent.run cfg gen elapsed input).result).isOk = true ∧
    lastIsResponse (Agent.run cfg gen elapsed input).events = true := by
  have hth := runLoop_no_throw cfg gen (maxIterationsOf cfg) hgen hsave
    (maxIterationsOf cfg) (initState cfg input)
  cases hlp : runLoop cfg gen (maxIterationsOf cfg) (maxIterationsOf cfg)
      (initState cfg input) with
  | mk st1 th =>
    rw [hlp] at hth
    have hthn : th = none := by simpa using hth
    subst hthn
    have hsome := runLoop_lastResponse cfg gen (maxIterationsOf cfg)
      (maxIterationsOf cfg) (initState cfg input) (by rw [hlp])
      (Or.inr (one_le_maxIterationsOf cfg))
    rw [hlp] at hsome
    obtain ⟨lr, hlr⟩ := Option.isSome_iff_exists.mp (by simpa using hsome)
    have htr := run_trace_of_loop_ok cfg gen elapsed input (maxIterationsOf cfg)
      st1 lr rfl hlp hlr
    rw [htr]
    exact ⟨rfl, lastIsResponse_concat _ _⟩

/-- Claim C4 witness: a hook that fails on every message except assistant
tool-call messages — that is, at exactly the three swallowed invocation
points — still lets the run resolve with a final response notification. -/
theorem C4_witness :
    ((Agent.run C4wCfg C4gen 0 (Sum.inl "x")).result).isOk = true ∧
    lastIsResponse (Agent.run C4wCfg C4gen 0 (Sum.inl "x")).events = true :=
  C4_hook_failure_policy C4wCfg C4gen 0 (Sum.inl "x")
    (fun _ => ⟨{ content := .str "hello", tool_calls := some [C4call] }, rfl⟩)
    (fun f hf m hm => by
      have hf2 : some C4wHook = some f := hf
      cases Option.some.inj hf2
      simp [C4wHook, hm, Except.isOk, Except.toBool])

/-- Claim C5 counterexample: the tool raises, and the run does append the
error-text tool message and reach the response notification — but the full
event list shows no tool-end notification ever fires for the failed call,
and the hook invocation list (roles user, assistant, assistant) shows the
error tool message is never persisted, contrary to the claim. -/
theorem C5_counterexample :
    (Agent.run C5cfg C5gen 3 (Sum.inl "hi")).events =
      [.start, .tool_start "t" .objNil,
       .response { content := .str "hello", tool_calls := some [C5call],
                   message := some "hello", usage := {}, meta := { latency_ms := 3 } }] ∧
    (Agent.run C5cfg C5gen 3 (Sum.inl "hi")).saved.map (fun m => m.role) =
      ["user", "assistant", "assistant"] ∧
    (Agent.run C5cfg C5gen 3 (Sum.inl "hi")).messages.map (fun m => m.content) =
      [.str "hi", .str "hello", .str "Error: boom"] := by
  exact ⟨rfl, rfl, rfl⟩

/-- Claim C5 (amended): when the single dispatched tool raises in a
single-iteration run (with a hook that itself never fails), the
error-prefixed tool message is appended to history, but it is NOT
persisted (the hook is never invoked with any tool-role message) and no
tool-end notification fires; the run still resolves with the original
response and the response notification fires last. -/
theorem C5_failed_tool_policy (cfg : AgentConfig) (gen : Generate) (elapsed : Nat)
    (input : String ⊕ List AgentMessage) (toks : List String) (resp : AgentResponse)
    (call : ToolCall) (ts : List AgentTool) (tool : AgentTool) (emsg : String)
    (h1 : cfg.max_tool_iterations = some 1)
    (h2 : cfg.tools = some ts)
    (hsaveOk : ∀ f m, cfg.saveFunction = some f → (f m).isOk = true)
    (hgen : gen (initialMessages cfg input) = (toks, Except.ok resp))
    (htc : resp.tool_calls = some [call])
    (hfind : ts.find? (fun t => some t.name == call.name) = some tool)
    (hex : tool.execute call.arguments = .error emsg) :
    errorToolMsg call tool.name emsg ∈ (Agent.run cfg gen elapsed input).messages ∧
    ((Agent.run cfg gen elapsed input).saved.all
      (fun m => m.role == "user" || m.role == "assistant")) = true ∧
    ((Agent.run cfg gen elapsed input).events.all (fun ev => !ev.isToolEnd)) = true ∧
    (Agent.run cfg gen elapsed input).result =
      Except.ok (withLatency (captureMessage resp) elapsed) ∧
    lastIsResponse (Agent.run cfg gen elapsed input).events = true := by
  have hmi : maxIterationsOf cfg = 1 := by simp [maxIterationsOf, h1]
  have hgen0 : gen (initState cfg input).messages = (toks, Except.ok resp) := hgen
  have hlp := runLoop_one_tools cfg gen (initState cfg input) toks resp [call] ts
    h2 hgen0 htc (fun f hf => hsaveOk f _ hf)
  rw [dispatchCalls_single_fail cfg.saveFunction ts _ call tool emsg hfind hex] at hlp
  have hlr : (afterTurnState resp 1 ((initState cfg input).generateCalls + 1)
      { messages := ((initState cfg input).messages ++ [assistantMsgOf resp [call]]) ++
          [errorToolMsg call tool.name emsg],
        saved := (initState cfg input).saved ++
          (match cfg.saveFunction with
           | some _ => [assistantMsgOf resp [call]]
           | none => []),
        events := ((initState cfg input).events ++ toks.map AgentEvent.token) ++
          [.tool_start tool.name call.arguments],
        lastToolResult := JSValue.null }).lastResponse =
      some (captureMessage resp) := by
    simp [afterTurnState]
  have htr := run_trace_of_loop_ok cfg gen elapsed input 1 _ _ hmi hlp hlr
  refine ⟨?_, ?_, ?_, ?_, ?_⟩
  · rw [htr]
    simp [afterTurnState]
  · rw [htr]
    rw [List.all_eq_true]
    intro m hm
    have hcase : m ∈ (initState cfg input).saved ∨ m.role = "assistant" := by
      cases hsf : cfg.saveFunction with
      | none =>
          simp only [afterTurnState, hsf, List.mem_append] at hm
          rcases hm with (hm | hm) | hm
          · exact Or.inl hm
          · simp at hm
          · simp at hm
      | some f =>
          simp only [afterTurnState, hsf, List.mem_append] at hm
          rcases hm with (hm | hm) | hm
          · exact Or.inl hm
          · simp at hm
            subst hm
            exact Or.inr rfl
          · simp at hm
            subst hm
            exact Or.inr rfl
    rcases hcase with hm2 | hm2
    · have := initState_saved_roles cfg input m hm2
      simp [this]
    · simp [hm2]
  · rw [htr]
    rw [List.all_eq_true]
    intro ev hev
    simp only [afterTurnState, List.mem_append] at hev
    rcases hev with ((hev | hev) | hev) | hev
    · have hst : ev = AgentEvent.start := by
        simpa [initState] using hev
      subst hst
      rfl
    · obtain ⟨t, _, rfl⟩ := List.mem_map.mp hev
      rfl
    · have hts : ev = AgentEvent.tool_start tool.name call.arguments := by
        simpa using hev
      subst hts
      rfl
    · have hre : ev = AgentEvent.response (withLatency (captureMessage resp) elapsed) := by
        simpa using hev
      subst hre
      rfl
  · rw [htr]
  · rw [htr]
    exact lastIsResponse_concat _ _

/-- Claim C5 witness: the failing tool "t" in a single-iteration run with a
working hook: the error tool message is in history, nothing tool-roled was
persisted, no tool-end fired, and the run resolved with the response last. -/
theorem C5_witness :
    errorToolMsg C5call "t" "boom" ∈ (Agent.run C5cfg C5gen 3 (Sum.inl "hi")).messages ∧
    ((Agent.run C5cfg C5gen 3 (Sum.inl "hi")).saved.all
      (fun m => m.role == "user" || m.role == "assistant")) = true ∧
    ((Agent.run C5cfg C5gen 3 (Sum.inl "hi")).events.all (fun ev => !ev.isToolEnd)) = true ∧
    (Agent.run C5cfg C5gen 3 (Sum.inl "hi")).result =
      Except.ok (withLatency (captureMessage
        { content := .str "hello", tool_calls := some [C5call] }) 3) ∧
    lastIsResponse (Agent.run C5cfg C5gen 3 (Sum.inl "hi")).events = true :=
  C5_failed_tool_policy C5cfg C5gen 3 (Sum.inl "hi") []
    { content := .str "hello", tool_calls := some [C5call] } C5call [C5tool] C5tool
    "boom" rfl rfl
    (fun f m hf => by
      have hf2 : some C5hook = some f := hf
      cases Option.some.inj hf2
      rfl)
    rfl rfl rfl rfl

/-- Claim C6: the loop is bounded — generate is invoked at most
maxIterationsOf cfg times, which is 1 when max_tool_iterations is
unconfigured — and every run settles either resolved with the response
notification fired last, or failed with the error notification fired last. -/
theorem C6_termination (cfg : AgentConfig) (gen : Generate) (elapsed : Nat)
    (input : String ⊕ List AgentMessage) :
    (Agent.run cfg gen elapsed input).generateCalls ≤ maxIterationsOf cfg ∧
    (cfg.max_tool_iterations = none → maxIterationsOf cfg = 1) ∧
    (((Agent.run cfg gen elapsed input).result.isOk = true ∧
        lastIsResponse (Agent.run cfg gen elapsed input).events = true) ∨
     ((Agent.run cfg gen elapsed input).result.isOk = false ∧
        lastIsError (Agent.run cfg gen elapsed input).events = true)) := by
  have hgc := runLoop_generateCalls cfg gen (maxIterationsOf cfg)
    (maxIterationsOf cfg) (initState cfg input)
  cases hlp : runLoop cfg gen (maxIterationsOf cfg) (maxIterationsOf cfg)
      (initState cfg input) with
  | mk st1 th =>
    rw [hlp] at hgc
    have hgc2 : st1.generateCalls ≤ maxIterationsOf cfg := by
      simpa [initState] using hgc
    cases th with
    | some e =>
        have htr := run_trace_of_loop_throw cfg gen elapsed input
          (maxIterationsOf cfg) st1 e rfl hlp
        rw [htr]
        exact ⟨hgc2, fun h => by simp [maxIterationsOf, h],
          Or.inr ⟨rfl, lastIsError_concat _ _ _⟩⟩
    | none =>
        have hsome := runLoop_lastResponse cfg gen (maxIterationsOf cfg)
          (maxIterationsOf cfg) (initState cfg input) (by rw [hlp])
          (Or.inr (one_le_maxIterationsOf cfg))
        rw [hlp] at hsome
        obtain ⟨lr, hlr⟩ := Option.isSome_iff_exists.mp (by simpa using hsome)
        have htr := run_trace_of_loop_ok cfg gen elapsed input (maxIterationsOf cfg)
          st1 lr rfl hlp hlr
        rw [htr]
        exact ⟨hgc2, fun h => by simp [maxIterationsOf, h],
          Or.inl ⟨rfl, lastIsResponse_concat _ _⟩⟩

/-- Claim C6 witness: a default-configured run with a plain text answer
makes exactly one generate call and resolves with a final response event. -/
theorem C6_witness :
    (Agent.run C6wCfg C6wGen 2 (Sum.inl "hi")).generateCalls ≤ maxIterationsOf C6wCfg ∧
    (C6wCfg.max_tool_iterations = none → maxIterationsOf C6wCfg = 1) ∧
    (((Agent.run C6wCfg C6wGen 2 (Sum.inl "hi")).result.isOk = true ∧
        lastIsResponse (Agent.run C6wCfg C6wGen 2 (Sum.inl "hi")).events = true) ∨
     ((Agent.run C6wCfg C6wGen 2 (Sum.inl "hi")).result.isOk = false ∧
        lastIsError (Agent.run C6wCfg C6wGen 2 (Sum.inl "hi")).events = true)) :=
  C6_termination C6wCfg C6wGen 2 (Sum.inl "hi")

/-- Claim C7: a run whose result is a re-raised error emitted exactly one
error notification, tagged execution_error and carrying the failure
message, as its last event, and emitted no response notification. -/
theorem C7_error_path (cfg : AgentConfig) (gen : Generate) (elapsed : Nat)
    (input : String ⊕ List AgentMessage) (e : String)
    (herr : (Agent.run cfg gen elapsed input).result = Except.error e) :
    (Agent.run cfg gen elapsed input).events.countP AgentEvent.isError = 1 ∧
    (Agent.run cfg gen elapsed input).events.getLast? =
      some (.error "execution_error" e) ∧
    (Agent.run cfg gen elapsed input).events.countP AgentEvent.isResponse = 0 := by
  obtain ⟨evs, hev, he0, hr0⟩ := runLoop_events cfg gen (maxIterationsOf cfg)
    (maxIterationsOf cfg) (initState cfg input)
  cases hlp : runLoop cfg gen (maxIterationsOf cfg) (maxIterationsOf cfg)
      (initState cfg input) with
  | mk st1 th =>
    rw [hlp] at hev
    have hev2 : st1.events = AgentEvent.start :: evs := by
      simpa [initState] using hev
    cases th with
    | none =>
        have hsome := runLoop_lastResponse cfg gen (maxIterationsOf cfg)
          (maxIterationsOf cfg) (initState cfg input) (by rw [hlp])
          (Or.inr (one_le_maxIterationsOf cfg))
        rw [hlp] at hsome
        obtain ⟨lr, hlr⟩ := Option.isSome_iff_exists.mp (by simpa using hsome)
        have htr := run_trace_of_loop_ok cfg gen elapsed input (maxIterationsOf cfg)
          st1 lr rfl hlp hlr
        rw [htr] at herr
        exact Except.noConfusion herr
    | some e0 =>
        have htr := run_trace_of_loop_throw cfg gen elapsed input
          (maxIterationsOf cfg) st1 e0 rfl hlp
        rw [htr] at herr
        have he : e0 = e := by
          simpa using herr
        subst he
        rw [htr]
        refine ⟨?_, ?_, ?_⟩
        · rw [hev2]
          simp [List.countP_append, List.countP_cons, he0,
            AgentEvent.isError]
        · simp [List.getLast?_concat]
        · rw [hev2]
          simp [List.countP_append, List.countP_cons, hr0,
            AgentEvent.isResponse]
  
/-- Claim C7 witness: a run whose provider call fails with "network down"
emits exactly one error notification, last, and no response notification. -/
theorem C7_witness :
    (Agent.run C7wCfg C7wGen 0 (Sum.inl "q")).events.countP AgentEvent.isError = 1 ∧
    (Agent.run C7wCfg C7wGen 0 (Sum.inl "q")).events.getLast? =
      some (.error "execution_error" "network down") ∧
    (Agent.run C7wCfg C7wGen 0 (Sum.inl "q")).events.countP AgentEvent.isResponse = 0 :=
  C7_error_path C7wCfg C7wGen 0 (Sum.inl "q") "network down" rfl

end AgentPulse
